import Mathlib

/-!
Shallow embedding of the proctored exam system (`src/main.py`).

The embedded core is the `ExamLogic` class (credential verification,
registration, question CRUD, exam scoring, result persistence) together with
the `requires_auth` session guard.  The relational store (SQLAlchemy over
MySQL) is modelled as an explicit `Store` value threaded through every
operation; auto-increment primary keys are modelled by `next…Id` counters.
Fallible `db.session.commit()` calls, which the Python code wraps in
`try/except` with a rollback, are modelled by an explicit `commitOk : Bool`
parameter: when it is `false` the write is rolled back (the store is returned
unchanged) exactly as the corresponding `except` branch does.
-/

namespace ExamSystem

/-! ### Model of `json.dumps` / `json.loads` for lists of strings

`ExamLogic.add_question` stores a question's options as `json.dumps(options)`
and `ExamLogic.get_exam_questions` reads them back with `json.loads`, skipping
a question whose stored text fails to parse.  We model the codec concretely:
`json_dumps` produces the bracketed, comma-space-separated list of
double-quoted strings that `json.dumps` produces for a list of strings,
escaping the JSON metacharacters with a backslash, and `json_loads` is a
parser for exactly that shape (returning `none`, the model of a
`json.JSONDecodeError`, on anything else). -/

/-- Escape of one character inside a JSON string literal: a double quote and a
backslash get a preceding backslash, every other character is emitted as
itself. -/
def escChar (c : Char) : List Char :=
  if c = '"' ∨ c = '\\' then ['\\', c] else [c]

/-- Escape of a whole character sequence. -/
def escapeChars : List Char → List Char
  | [] => []
  | c :: cs => escChar c ++ escapeChars cs

/-- Characters of the double-quoted JSON string literal for `s`. -/
def quoteChars (s : String) : List Char :=
  '"' :: (escapeChars s.data ++ ['"'])

/-- Characters of the comma-space-separated item list (without brackets). -/
def itemsChars : List String → List Char
  | [] => []
  | [s] => quoteChars s
  | s :: rest => quoteChars s ++ ',' :: ' ' :: itemsChars rest

/-- Model of `json.dumps` on a list of strings. -/
def json_dumps (l : List String) : String :=
  String.mk ('[' :: (itemsChars l ++ [']']))

/-- Parse the body of a JSON string literal (the opening quote has already
been consumed); returns the decoded characters and the remainder after the
closing quote.  The boolean state records whether the previous character was
an unconsumed backslash, in which case the current character is decoded
literally. -/
def parseStrBodyAux : Bool → List Char → Option (List Char × List Char)
  | _, [] => none
  | true, d :: rest => (parseStrBodyAux false rest).map (fun p => (d :: p.1, p.2))
  | false, c :: rest =>
    if c = '\\' then parseStrBodyAux true rest
    else if c = '"' then some ([], rest)
    else (parseStrBodyAux false rest).map (fun p => (c :: p.1, p.2))

/-- Parse the body of a JSON string literal from its start. -/
def parseStrBody (cs : List Char) : Option (List Char × List Char) :=
  parseStrBodyAux false cs

/-- Recognise the comma-space item separator, returning what follows it. -/
def sepRest : List Char → Option (List Char)
  | ',' :: ' ' :: more => some more
  | _ => none

/-- Parse a non-empty comma-space-separated sequence of JSON string literals.
The `fuel` argument only bounds the number of items and is set large enough
by the caller. -/
def parseListChars : Nat → List Char → Option (List String × List Char)
  | 0, _ => none
  | fuel + 1, cs =>
    match cs with
    | '"' :: rest =>
      match parseStrBody rest with
      | some (body, rem) =>
        match sepRest rem with
        | some more =>
          match parseListChars fuel more with
          | some (its, rem2) => some (String.mk body :: its, rem2)
          | none => none
        | none => some ([String.mk body], rem)
      | none => none
    | _ => none

/-- Model of `json.loads` restricted to lists of strings: accepts exactly the
strings `json_dumps` produces and returns `none` (a `json.JSONDecodeError`)
on everything else. -/
def json_loads (s : String) : Option (List String) :=
  match s.data with
  | '[' :: rest =>
    if rest = [']'] then some []
    else
      match parseListChars rest.length rest with
      | some (its, [']']) => some its
      | _ => none
  | _ => none

/-! ### Round-trip of the options codec -/

theorem string_mk_data (s : String) : String.mk s.data = s := rfl

theorem string_data_mk (l : List Char) : (String.mk l).data = l := rfl

theorem parseStrBody_escape (s : List Char) (suffix : List Char) :
    parseStrBody (escapeChars s ++ '"' :: suffix) = some (s, suffix) := by
  unfold parseStrBody
  induction s with
  | nil => rfl
  | cons c cs ih =>
    by_cases h : c = '"' ∨ c = '\\'
    · have he : escChar c = ['\\', c] := by simp only [escChar, if_pos h]
      simp [escapeChars, he, parseStrBodyAux, ih]
    · push_neg at h
      have he : escChar c = [c] := by simp [escChar, h.1, h.2]
      simp [escapeChars, he, parseStrBodyAux, h.1, h.2, ih]

theorem parseListChars_items (xs : List String) (x : String) (fuel : Nat)
    (hf : xs.length < fuel) :
    parseListChars fuel (itemsChars (x :: xs) ++ [']']) = some (x :: xs, [']']) := by
  induction xs generalizing x fuel with
  | nil =>
    cases fuel with
    | zero => omega
    | succ fuel =>
      have hs : itemsChars [x] ++ [']'] = '"' :: (escapeChars x.data ++ '"' :: [']']) := by
        simp [itemsChars, quoteChars]
      rw [hs]
      have hsep : sepRest [']'] = none := rfl
      simp [parseListChars, parseStrBody_escape, hsep, string_mk_data]
  | cons y ys ih =>
    cases fuel with
    | zero => omega
    | succ fuel =>
      have hrec := ih y fuel (by simp at hf ⊢; omega)
      have hs : itemsChars (x :: y :: ys) ++ [']']
          = '"' :: (escapeChars x.data ++ '"' ::
              (',' :: ' ' :: (itemsChars (y :: ys) ++ [']']))) := by
        simp [itemsChars, quoteChars]
      rw [hs]
      simp [parseListChars, parseStrBody_escape, sepRest, hrec, string_mk_data]

theorem itemsChars_length (l : List String) : l.length ≤ (itemsChars l).length := by
  induction l with
  | nil => simp [itemsChars]
  | cons x xs ih =>
    cases xs with
    | nil => simp [itemsChars, quoteChars]
    | cons y ys =>
      have h1 : 1 ≤ (quoteChars x).length := by simp [quoteChars]
      simp only [itemsChars, List.length_append, List.length_cons] at ih ⊢
      omega

theorem json_loads_dumps (l : List String) : json_loads (json_dumps l) = some l := by
  cases l with
  | nil => rfl
  | cons x xs =>
    obtain ⟨t, ht⟩ : ∃ t, itemsChars (x :: xs) = '"' :: t := by
      cases xs <;> exact ⟨_, rfl⟩
    have hne : ¬ (itemsChars (x :: xs) ++ [']'] = [']']) := by
      rw [ht]; intro hcontra
      have : '"' = ']' := by injection hcontra
      exact absurd this (by decide)
    have hlen : xs.length < (itemsChars (x :: xs) ++ [']']).length := by
      have h2 := itemsChars_length (x :: xs)
      simp only [List.length_append, List.length_cons] at h2 ⊢
      omega
    have hparse := parseListChars_items xs x (itemsChars (x :: xs) ++ [']']).length hlen
    show json_loads (String.mk ('[' :: (itemsChars (x :: xs) ++ [']']))) = some (x :: xs)
    simp only [json_loads, string_data_mk]
    rw [if_neg hne, hparse]
    rfl

/-! ### Data model

One row per SQLAlchemy model in `src/main.py`.  `Result.timestamp` is set
server-side and never consulted by the embedded operations, so it is omitted
from the row model. -/

/-- Row of the `users` table. -/
structure User where
  id : Nat
  username : String
  password_hash : String
  role : String
deriving DecidableEq

/-- Row of the `questions` table; `options` holds the JSON-serialized list of
option strings, exactly as the `options` text column does. -/
structure Question where
  id : Nat
  question_text : String
  options : String
  correct_option : String
  topic : String
deriving DecidableEq

/-- Row of the `results` table. -/
structure ResultRow where
  id : Nat
  user_id : Nat
  score : Nat
  total_questions : Nat
deriving DecidableEq

/-- The relational store, with auto-increment counters for the three primary
keys. -/
structure Store where
  users : List User
  questions : List Question
  results : List ResultRow
  nextUserId : Nat
  nextQuestionId : Nat
  nextResultId : Nat
deriving DecidableEq

/-! ### Password hashing model

`werkzeug.security.generate_password_hash` / `check_password_hash` are
external collaborators; the model keeps only the property the code relies
on: verification succeeds exactly when the password presented is the one
the digest was generated from. -/

/-- Model of `werkzeug.security.generate_password_hash`. -/
def generate_password_hash (password : String) : String :=
  String.append "pbkdf2-sha256-digest-of-" password

/-- Model of `werkzeug.security.check_password_hash`: the digest matches
exactly the password it was generated from. -/
def check_password_hash (digest password : String) : Bool :=
  digest == generate_password_hash password

/-! ### Submitted answer keys

The keys of the `answers` dict handed to `ExamLogic.submit_exam` are Python
values: the HTTP route always builds string keys (`key.split('_')[1]`), but
the method itself accepts any dict, so a key is modelled as either an integer
or a string.  `pyStr` is Python's `str()` on such a key.  A key matches a
stored question id when the SQL `Question.id.in_(question_ids)` comparison
accepts it: an integer key by integer equality and a string key by MySQL's
numeric coercion, both rendered here through the (injective) decimal
rendering of the id. -/

/-- A Python dict key used in an `answers` mapping: an `int` or a `str`. -/
inductive PyKey where
  | intKey (n : Nat)
  | strKey (s : String)
deriving DecidableEq

/-- Python `str()` on an answer key. -/
def pyStr : PyKey → String
  | .intKey n => toString n
  | .strKey s => s

/-- Whether the SQL `IN` lookup of `submit_exam` matches key `k` against the
stored question id `qid`. -/
def keyMatches (k : PyKey) (qid : Nat) : Bool :=
  pyStr k == toString qid

/-! ### Python dict model

`submit_exam` builds `correct_answers_map` with a dict comprehension; a dict
is modelled as an association list into which later bindings overwrite
earlier ones with the same key. -/

/-- Insert into a Python dict: overwrite the binding if the key is present,
append it otherwise. -/
def dictInsert (m : List (String × String)) (k v : String) : List (String × String) :=
  if m.any (fun p => p.1 == k) then
    m.map (fun p => if p.1 == k then (p.1, v) else p)
  else m ++ [(k, v)]

/-- The dict comprehension of `submit_exam`, mapping `str(q.id)` to
`q.correct_option` over the fetched questions. -/
def buildMap (qs : List Question) : List (String × String) :=
  qs.foldl (fun m q => dictInsert m (toString q.id) q.correct_option) []

/-! ### The ExamLogic operations -/

/-- Embedding of `ExamLogic.get_user_by_username`:
`User.query.filter_by(username=username).first()`. -/
def get_user_by_username (store : Store) (username : String) : Option User :=
  store.users.find? (fun u => u.username == username)

/-- Embedding of `ExamLogic.verify_login`: look the user up and compare the
presented password against the stored digest. -/
def verify_login (store : Store) (username password : String) : Option User :=
  match get_user_by_username store username with
  | some user => if check_password_hash user.password_hash password then some user else none
  | none => none

/-- Embedding of `ExamLogic.register_student`.  Returns the error message
(`none` on success, exactly as the Python method returns `None`) and the
resulting store.  `commitOk` models whether `db.session.commit()` succeeds;
on failure the session is rolled back and the database-error message
returned. -/
def register_student (store : Store) (username password : String) (commitOk : Bool) :
    Option String × Store :=
  if username = "" ∨ password = "" then
    (some "Username and password are required.", store)
  else
    match get_user_by_username store username with
    | some _ => (some "Username already exists. Please choose another.", store)
    | none =>
      if commitOk then
        (none,
          { store with
            users := store.users ++
              [⟨store.nextUserId, username, generate_password_hash password, "student"⟩],
            nextUserId := store.nextUserId + 1 })
      else (some "Database error during registration.", store)

/-- Embedding of `ExamLogic.add_question`: serialize the options with
`json.dumps` and insert the row; on commit failure roll back and return
`False`. -/
def add_question (store : Store) (question_text : String) (options : List String)
    (correct_option : String) (topic : String) (commitOk : Bool) : Bool × Store :=
  if commitOk then
    (true,
      { store with
        questions := store.questions ++
          [⟨store.nextQuestionId, question_text, json_dumps options, correct_option, topic⟩],
        nextQuestionId := store.nextQuestionId + 1 })
  else (false, store)

/-- Entry of the list returned by `get_all_questions` (options still the JSON
string, as in the Python dict literal). -/
structure QuestionView where
  id : Nat
  question_text : String
  options : String
  correct_option : String
  topic : String
deriving DecidableEq

/-- Boolean order used to model `order_by(Question.topic, Question.id)`. -/
def questionLE (a b : Question) : Bool :=
  if a.topic = b.topic then a.id ≤ b.id else decide (a.topic < b.topic)

/-- Embedding of `ExamLogic.get_all_questions`: all questions ordered by
(topic, id), rendered as dictionaries. -/
def get_all_questions (store : Store) : List QuestionView :=
  (store.questions.mergeSort questionLE).map
    (fun q => ⟨q.id, q.question_text, q.options, q.correct_option, q.topic⟩)

/-- Entry of the list returned by `get_exam_questions`, with the options
deserialized back into a list (and no `correct_option` exposed). -/
structure ExamQuestion where
  id : Nat
  question_text : String
  options : List String
deriving DecidableEq

/-- Embedding of `ExamLogic.get_exam_questions`: deserialize each stored
question's options, skipping (with a log line) any question whose stored
options fail to parse. -/
def get_exam_questions (store : Store) : List ExamQuestion :=
  store.questions.filterMap
    (fun q =>
      match json_loads q.options with
      | some opts => some ⟨q.id, q.question_text, opts⟩
      | none => none)

/-- Embedding of `ExamLogic.submit_exam`.  Returns the `(score,
total_questions)` pair together with the resulting store.  `commitOk` models
whether the `db.session.commit()` persisting the `Result` row succeeds; on
failure the session is rolled back, the error is only printed, and the same
pair is returned. -/
def submit_exam (store : Store) (user_id : Nat) (answers : List (PyKey × String))
    (commitOk : Bool) : (Nat × Nat) × Store :=
  if answers.isEmpty then ((0, 0), store)
  else
    let correct_answers_db :=
      store.questions.filter (fun q => answers.any (fun a => keyMatches a.1 q.id))
    let correct_answers_map := buildMap correct_answers_db
    let total_questions := correct_answers_map.length
    let score := answers.countP (fun a =>
      match correct_answers_map.find? (fun p => p.1 == pyStr a.1) with
      | some p => a.2 == p.2
      | none => false)
    let store' :=
      if commitOk then
        { store with
          results := store.results ++ [⟨store.nextResultId, user_id, score, total_questions⟩],
          nextResultId := store.nextResultId + 1 }
      else store
    ((score, total_questions), store')

/-! ### The session guard -/

/-- The per-request session, as the Flask `session` dict: a `username` key
and a `role` key, each possibly absent. -/
structure Session where
  username : Option String
  role : Option String
deriving DecidableEq

/-- Outcome of the `requires_auth` decorator: run the wrapped view, or
redirect to the login page, or redirect to the student dashboard. -/
inductive AuthDecision where
  | allow
  | redirectLogin
  | redirectStudentHome
deriving DecidableEq

/-- Embedding of the `requires_auth(role)` decorator: anonymous sessions are
sent to login; a session whose role differs from the required one is sent to
the student dashboard when its role is student and to login otherwise. -/
def requires_auth (role : String) (s : Session) : AuthDecision :=
  if s.username.isNone then .redirectLogin
  else if s.role ≠ some role then
    if s.role = some "student" then .redirectStudentHome else .redirectLogin
  else .allow

/-! ### Helper lemmas about the dict model -/

theorem foldl_dictInsert_eq (qs : List Question) (m : List (String × String))
    (h : (m.map Prod.fst ++ qs.map (fun q => toString q.id)).Nodup) :
    qs.foldl (fun acc q => dictInsert acc (toString q.id) q.correct_option) m
      = m ++ qs.map (fun q => (toString q.id, q.correct_option)) := by
  induction qs generalizing m with
  | nil => simp
  | cons q qs ih =>
    have hnotin : ¬ (m.any (fun p => p.1 == toString q.id) = true) := by
      rw [List.any_eq_true]
      rintro ⟨p, hpm, hpk⟩
      have hd := (List.nodup_append.mp h).2.2
      refine hd (List.mem_map_of_mem Prod.fst hpm) ?_
      rw [beq_iff_eq] at hpk
      rw [hpk]
      exact List.mem_cons_self _ _
    have hstep : dictInsert m (toString q.id) q.correct_option
        = m ++ [(toString q.id, q.correct_option)] := by
      unfold dictInsert
      rw [if_neg hnotin]
    have h2 : ((m ++ [(toString q.id, q.correct_option)]).map Prod.fst
        ++ qs.map (fun q2 => toString q2.id)).Nodup := by
      simpa [List.append_assoc] using h
    rw [List.foldl_cons, hstep, ih _ h2]
    simp

theorem buildMap_eq (qs : List Question)
    (h : (qs.map (fun q => toString q.id)).Nodup) :
    buildMap qs = qs.map (fun q => (toString q.id, q.correct_option)) := by
  have hm := foldl_dictInsert_eq qs [] (by simpa using h)
  simpa [buildMap] using hm

/-! ### Helper lemmas about `submit_exam` -/

theorem submit_exam_pair_eq (store : Store) (user_id : Nat)
    (answers : List (PyKey × String)) (commitOk : Bool)
    (h : answers.isEmpty = false) :
    (submit_exam store user_id answers commitOk).1
      = (answers.countP (fun a =>
            match (buildMap (store.questions.filter
                (fun q => answers.any (fun a2 => keyMatches a2.1 q.id)))).find?
              (fun p => p.1 == pyStr a.1) with
            | some p => a.2 == p.2
            | none => false),
         (buildMap (store.questions.filter
            (fun q => answers.any (fun a2 => keyMatches a2.1 q.id)))).length) := by
  unfold submit_exam
  rw [h, if_neg Bool.false_ne_true]

theorem submit_exam_pointwise (questions : List Question)
    (answers : List (PyKey × String)) (a : PyKey × String) (ha : a ∈ answers)
    (hids : (questions.map (fun q => toString q.id)).Nodup) :
    (match (buildMap (questions.filter
          (fun q => answers.any (fun a2 => keyMatches a2.1 q.id)))).find?
        (fun p => p.1 == pyStr a.1) with
      | some p => a.2 == p.2
      | none => false)
    = questions.any (fun q => keyMatches a.1 q.id && (a.2 == q.correct_option)) := by
  set found := questions.filter (fun q => answers.any (fun a2 => keyMatches a2.1 q.id))
    with hfd
  have hfoundkeys : (found.map (fun q => toString q.id)).Nodup :=
    List.Nodup.sublist ((List.filter_sublist questions).map (fun q => toString q.id)) hids
  rw [buildMap_eq found hfoundkeys]
  cases hf : (found.map (fun q => (toString q.id, q.correct_option))).find?
      (fun p => p.1 == pyStr a.1) with
  | none =>
    have hnone := List.find?_eq_none.mp hf
    show (false : Bool) = _
    symm
    refine Bool.eq_false_iff.mpr ?_
    intro hany
    obtain ⟨q, hqmem, hqb⟩ := List.any_eq_true.mp hany
    rw [Bool.and_eq_true] at hqb
    obtain ⟨hqm, hqc⟩ := hqb
    have hqf : q ∈ found :=
      List.mem_filter.mpr ⟨hqmem, List.any_eq_true.mpr ⟨a, ha, hqm⟩⟩
    have hmem : ((toString q.id, q.correct_option) : String × String)
        ∈ found.map (fun q2 => (toString q2.id, q2.correct_option)) :=
      List.mem_map_of_mem _ hqf
    refine hnone _ hmem ?_
    unfold keyMatches at hqm
    rw [beq_iff_eq] at hqm ⊢
    exact hqm.symm
  | some p =>
    have hpred := List.find?_some hf
    have hpmem := List.mem_of_find?_eq_some hf
    obtain ⟨q0, hq0f, hq0e⟩ := List.mem_map.mp hpmem
    rw [beq_iff_eq] at hpred
    subst hq0e
    show ((a.2 == q0.correct_option) : Bool) = _
    cases hc : (a.2 == q0.correct_option) with
    | true =>
      symm
      rw [List.any_eq_true]
      refine ⟨q0, List.mem_of_mem_filter hq0f, ?_⟩
      rw [Bool.and_eq_true]
      refine ⟨?_, hc⟩
      unfold keyMatches
      rw [beq_iff_eq]
      exact hpred.symm
    | false =>
      symm
      refine Bool.eq_false_iff.mpr ?_
      intro hany
      obtain ⟨q1, hq1mem, hq1b⟩ := List.any_eq_true.mp hany
      rw [Bool.and_eq_true] at hq1b
      obtain ⟨h1m, h1c⟩ := hq1b
      have hq1f : q1 ∈ found :=
        List.mem_filter.mpr ⟨hq1mem, List.any_eq_true.mpr ⟨a, ha, h1m⟩⟩
      unfold keyMatches at h1m
      rw [beq_iff_eq] at h1m
      have hkeys : (fun q2 => toString q2.id) q1 = (fun q2 => toString q2.id) q0 :=
        h1m.symm.trans hpred.symm
      have hq10 : q1 = q0 := List.inj_on_of_nodup_map hfoundkeys hq1f hq0f hkeys
      rw [hq10] at h1c
      rw [hc] at h1c
      exact Bool.false_ne_true h1c

/-! ### The claims -/

/-- C1: for every `submit_exam` call with non-empty answers, over a store whose
question primary keys are distinct, `total_questions` equals the number of
questions in the store whose id is matched by a key of the answers mapping
(submitted ids not found in the store are excluded from the denominator), and
`score` equals the number of submitted answers whose key matched a stored
question and whose submitted text is exactly, case-sensitively, string-equal
to that question's stored `correct_option`.  The witness instantiates the
claim's concrete example: Q1 (correct "B"), Q2 (correct "C"), answers mapping
Q1 to "B" and Q2 to "X" yield the pair (1, 2). -/
theorem submit_exam_score_and_total (store : Store) (user_id : Nat)
    (answers : List (PyKey × String)) (commitOk : Bool) (hne : answers ≠ [])
    (hids : (store.questions.map (fun q => toString q.id)).Nodup) :
    (submit_exam store user_id answers commitOk).1.2
      = (store.questions.filter
          (fun q => answers.any (fun a2 => keyMatches a2.1 q.id))).length
    ∧ (submit_exam store user_id answers commitOk).1.1
      = answers.countP (fun a =>
          store.questions.any
            (fun q => keyMatches a.1 q.id && (a.2 == q.correct_option))) := by
  have hempty : answers.isEmpty = false := by
    cases answers with
    | nil => exact absurd rfl hne
    | cons a l => rfl
  have hp := submit_exam_pair_eq store user_id answers commitOk hempty
  have hfoundkeys : ((store.questions.filter
      (fun q => answers.any (fun a2 => keyMatches a2.1 q.id))).map
        (fun q => toString q.id)).Nodup :=
    List.Nodup.sublist
      ((List.filter_sublist store.questions).map (fun q => toString q.id)) hids
  constructor
  · rw [hp]
    show (buildMap _).length = _
    rw [buildMap_eq _ hfoundkeys, List.length_map]
  · rw [hp]
    show List.countP _ answers = _
    exact List.countP_congr (fun a ha => by
      rw [submit_exam_pointwise store.questions answers a ha hids])

/-- Witness for C1: the concrete example from the claim, with Q1 (id 1,
correct "B"), Q2 (id 2, correct "C") and answers mapping "1" to "B" and "2"
to "X"; the returned pair is (1, 2). -/
theorem submit_exam_score_and_total_witness :
    (submit_exam ⟨[], [⟨1, "Q1", "o", "B", "General"⟩, ⟨2, "Q2", "o", "C", "General"⟩],
        [], 0, 3, 0⟩ 7
      [(.strKey "1", "B"), (.strKey "2", "X")] true).1 = (1, 2) := by
  have h := submit_exam_score_and_total
    ⟨[], [⟨1, "Q1", "o", "B", "General"⟩, ⟨2, "Q2", "o", "C", "General"⟩], [], 0, 3, 0⟩ 7
    [(.strKey "1", "B"), (.strKey "2", "X")] true (by decide) (by decide)
  have hpair : (submit_exam ⟨[], [⟨1, "Q1", "o", "B", "General"⟩,
      ⟨2, "Q2", "o", "C", "General"⟩], [], 0, 3, 0⟩ 7
      [(.strKey "1", "B"), (.strKey "2", "X")] true).1
      = ((submit_exam ⟨[], [⟨1, "Q1", "o", "B", "General"⟩,
          ⟨2, "Q2", "o", "C", "General"⟩], [], 0, 3, 0⟩ 7
          [(.strKey "1", "B"), (.strKey "2", "X")] true).1.1,
         (submit_exam ⟨[], [⟨1, "Q1", "o", "B", "General"⟩,
          ⟨2, "Q2", "o", "C", "General"⟩], [], 0, 3, 0⟩ 7
          [(.strKey "1", "B"), (.strKey "2", "X")] true).1.2) := rfl
  rw [hpair, h.1, h.2]
  decide

/-- C2: `submit_exam` with an empty answers mapping returns (0, 0) and leaves
the store untouched (in particular it creates no `Result` row); the Python
method returns before issuing any query. -/
theorem submit_exam_empty_answers (store : Store) (user_id : Nat) (commitOk : Bool) :
    submit_exam store user_id [] commitOk = ((0, 0), store) := rfl

/-- C3: the `(score, total_questions)` pair returned by `submit_exam` is the
same whether or not the write persisting the `Result` row succeeds: the store
error is caught (the embedded function is total and returns the pair in both
cases) and only logged, never propagated. -/
theorem submit_exam_pair_independent_of_write (store : Store) (user_id : Nat)
    (answers : List (PyKey × String)) :
    (submit_exam store user_id answers false).1
      = (submit_exam store user_id answers true).1 := by
  cases hempty : answers.isEmpty with
  | true =>
    have hnil : answers = [] := List.isEmpty_eq_true.mp hempty
    rw [hnil]
    rfl
  | false =>
    rw [submit_exam_pair_eq store user_id answers false hempty,
      submit_exam_pair_eq store user_id answers true hempty]

/-- C9 counterexample: a Python dict may hold the int key `1` and the str key
`"1"` as two distinct keys; both match the stored question with id 1 and a
correct answer under each key is counted, so `submit_exam` returns score 2
with `total_questions` 1, violating score ≤ total_questions, and persists a
`Result` row with those values. -/
theorem submit_exam_mixed_keys_counterexample :
    (submit_exam ⟨[], [⟨1, "Q1", "o", "B", "General"⟩], [], 0, 2, 0⟩ 5
        [(.intKey 1, "B"), (.strKey "1", "B")] true).1 = (2, 1)
    ∧ ¬ ((submit_exam ⟨[], [⟨1, "Q1", "o", "B", "General"⟩], [], 0, 2, 0⟩ 5
        [(.intKey 1, "B"), (.strKey "1", "B")] true).1.1
      ≤ (submit_exam ⟨[], [⟨1, "Q1", "o", "B", "General"⟩], [], 0, 2, 0⟩ 5
        [(.intKey 1, "B"), (.strKey "1", "B")] true).1.2)
    ∧ (submit_exam ⟨[], [⟨1, "Q1", "o", "B", "General"⟩], [], 0, 2, 0⟩ 5
        [(.intKey 1, "B"), (.strKey "1", "B")] true).2.results
      = [⟨0, 5, 2, 1⟩] := by
  refine ⟨rfl, by decide, rfl⟩

/-- C9 (amended): score ≤ total_questions holds for every `submit_exam` call
whose answer keys have pairwise distinct string representations — in
particular for every mapping built by the HTTP route, whose keys are the
distinct string keys of a form dict.  (As stated, over mappings with mixed
representations of the same id, the claim fails: see the counterexample.) -/
theorem submit_exam_score_le_total (store : Store) (user_id : Nat)
    (answers : List (PyKey × String)) (commitOk : Bool)
    (hk : (answers.map (fun a => pyStr a.1)).Nodup) :
    (submit_exam store user_id answers commitOk).1.1
      ≤ (submit_exam store user_id answers commitOk).1.2 := by
  cases hempty : answers.isEmpty with
  | true =>
    have hnil : answers = [] := List.isEmpty_eq_true.mp hempty
    rw [hnil]
    exact Nat.le_refl 0
  | false =>
    rw [submit_exam_pair_eq store user_id answers commitOk hempty]
    show List.countP _ answers ≤ (buildMap _).length
    set M := buildMap (store.questions.filter
      (fun q => answers.any (fun a2 => keyMatches a2.1 q.id))) with hM
    rw [List.countP_eq_length_filter]
    set pred := fun a : PyKey × String =>
      (match M.find? (fun p => p.1 == pyStr a.1) with
        | some p => a.2 == p.2
        | none => false) with hpred
    have hsub : ((answers.filter pred).map (fun a => pyStr a.1)).Sublist
        (answers.map (fun a => pyStr a.1)) :=
      (List.filter_sublist answers).map (fun a => pyStr a.1)
    have hnd : ((answers.filter pred).map (fun a => pyStr a.1)).Nodup :=
      List.Nodup.sublist hsub hk
    have hsubset : ∀ s ∈ (answers.filter pred).map (fun a => pyStr a.1),
        s ∈ M.map Prod.fst := by
      intro s hs
      obtain ⟨a, haf, hsa⟩ := List.mem_map.mp hs
      have hpa : (match M.find? (fun p => p.1 == pyStr a.1) with
          | some p => a.2 == p.2
          | none => false) = true := (List.mem_filter.mp haf).2
      cases hf : M.find? (fun p => p.1 == pyStr a.1) with
      | none =>
        rw [hf] at hpa
        exact absurd hpa Bool.false_ne_true
      | some p =>
        have hmem := List.mem_of_find?_eq_some hf
        have hkey := List.find?_some hf
        rw [beq_iff_eq] at hkey
        rw [← hsa, ← hkey]
        exact List.mem_map_of_mem Prod.fst hmem
    have hsp := List.Nodup.subperm hnd (fun s hs => hsubset s hs)
    have hlen := hsp.length_le
    rw [List.length_map, List.length_map] at hlen
    exact hlen

/-- Witness for C9 (amended): with two distinct string keys the computed score
is bounded by the total. -/
theorem submit_exam_score_le_total_witness :
    (submit_exam ⟨[], [⟨1, "Q1", "o", "B", "General"⟩, ⟨2, "Q2", "o", "C", "General"⟩],
        [], 0, 3, 0⟩ 7
      [(.strKey "1", "B"), (.strKey "2", "X")] true).1.1
    ≤ (submit_exam ⟨[], [⟨1, "Q1", "o", "B", "General"⟩, ⟨2, "Q2", "o", "C", "General"⟩],
        [], 0, 3, 0⟩ 7
      [(.strKey "1", "B"), (.strKey "2", "X")] true).1.2 :=
  submit_exam_score_le_total
    ⟨[], [⟨1, "Q1", "o", "B", "General"⟩, ⟨2, "Q2", "o", "C", "General"⟩], [], 0, 3, 0⟩ 7
    [(.strKey "1", "B"), (.strKey "2", "X")] true (by decide)

/-- C10: for every non-empty answers mapping none of whose keys matches a
stored question id, `submit_exam` returns (0, 0) and, when the write succeeds,
still persists a new `Result` row with score 0 and total_questions 0 for that
user — unlike the empty-mapping case, which persists nothing. -/
theorem submit_exam_no_matching_questions (store : Store) (user_id : Nat)
    (answers : List (PyKey × String)) (hne : answers ≠ [])
    (hnomatch : ∀ a ∈ answers, ∀ q ∈ store.questions, keyMatches a.1 q.id = false) :
    (submit_exam store user_id answers true).1 = (0, 0)
    ∧ (submit_exam store user_id answers true).2.results
      = store.results ++ [⟨store.nextResultId, user_id, 0, 0⟩] := by
  have hempty : answers.isEmpty = false := by
    cases answers with
    | nil => exact absurd rfl hne
    | cons a l => rfl
  have hfilter : store.questions.filter
      (fun q => answers.any (fun a2 => keyMatches a2.1 q.id)) = [] := by
    rw [List.filter_eq_nil_iff]
    intro q hq
    intro hany
    obtain ⟨a, ha, hk⟩ := List.any_eq_true.mp hany
    rw [hnomatch a ha q hq] at hk
    exact Bool.false_ne_true hk
  unfold submit_exam
  rw [hempty, if_neg Bool.false_ne_true, hfilter]
  constructor
  · show ((List.countP _ answers, (buildMap []).length)) = (0, 0)
    have hcount : List.countP (fun a : PyKey × String =>
        (match (buildMap []).find? (fun p => p.1 == pyStr a.1) with
          | some p => a.2 == p.2
          | none => false)) answers = 0 := by
      simp [buildMap]
    rw [hcount]
    rfl
  · show (store.results ++ [⟨store.nextResultId, user_id, List.countP _ answers,
      (buildMap []).length⟩]) = _
    have hcount : List.countP (fun a : PyKey × String =>
        (match (buildMap []).find? (fun p => p.1 == pyStr a.1) with
          | some p => a.2 == p.2
          | none => false)) answers = 0 := by
      simp [buildMap]
    rw [hcount]
    rfl

/-- Witness for C10: one stored question (id 5), one submitted answer for the
unrelated id 9: the pair is (0, 0) and a `Result` row (0, 0) is persisted. -/
theorem submit_exam_no_matching_questions_witness :
    (submit_exam ⟨[], [⟨5, "Q5", "o", "A", "General"⟩], [], 0, 6, 4⟩ 3
        [(.strKey "9", "A")] true).1 = (0, 0)
    ∧ (submit_exam ⟨[], [⟨5, "Q5", "o", "A", "General"⟩], [], 0, 6, 4⟩ 3
        [(.strKey "9", "A")] true).2.results = [] ++ [⟨4, 3, 0, 0⟩] :=
  submit_exam_no_matching_questions
    ⟨[], [⟨5, "Q5", "o", "A", "General"⟩], [], 0, 6, 4⟩ 3
    [(.strKey "9", "A")] (by decide) (by decide)

/-- C4: for every non-empty username and password such that no user with that
username exists, a successful `register_student` followed by `verify_login`
with the same credentials returns a present user whose role is student and
whose username is the registered one. -/
theorem register_then_verify_login (store : Store) (username password : String)
    (hu : username ≠ "") (hp : password ≠ "")
    (hfree : get_user_by_username store username = none) :
    (register_student store username password true).1 = none
    ∧ ∃ u, verify_login (register_student store username password true).2
          username password = some u
        ∧ u.role = "student" ∧ u.username = username := by
  have hreg : register_student store username password true
      = (none, { store with
          users := store.users ++
            [⟨store.nextUserId, username, generate_password_hash password, "student"⟩],
          nextUserId := store.nextUserId + 1 }) := by
    unfold register_student
    rw [if_neg (not_or.mpr ⟨hu, hp⟩), hfree]
    rfl
  rw [hreg]
  refine ⟨rfl, ?_⟩
  refine Exists.intro
    (⟨store.nextUserId, username, generate_password_hash password, "student"⟩ : User) ?_
  refine ⟨?_, rfl, rfl⟩
  show verify_login { store with
      users := store.users ++
        [⟨store.nextUserId, username, generate_password_hash password, "student"⟩],
      nextUserId := store.nextUserId + 1 } username password = _
  unfold verify_login get_user_by_username
  show (match (store.users ++
      ([⟨store.nextUserId, username, generate_password_hash password, "student"⟩] :
        List User)).find?
        (fun u : User => u.username == username) with
    | some user => if check_password_hash user.password_hash password then some user else none
    | none => none) = _
  rw [List.find?_append]
  have hfree2 : store.users.find? (fun u : User => u.username == username) = none := hfree
  rw [hfree2]
  show (match (([⟨store.nextUserId, username, generate_password_hash password,
      "student"⟩] : List User).find? (fun u : User => u.username == username)) with
    | some user => if check_password_hash user.password_hash password then some user else none
    | none => none) = _
  rw [List.find?_cons_of_pos _ (by rw [beq_iff_eq])]
  show (if check_password_hash (generate_password_hash password) password then _ else none) = _
  rw [if_pos (by rw [check_password_hash, beq_iff_eq])]

/-- Witness for C4: registering "alice" with password "secret" in an empty
store and logging in with the same credentials yields a student account named
"alice". -/
theorem register_then_verify_login_witness :
    (register_student ⟨[], [], [], 0, 0, 0⟩ "alice" "secret" true).1 = none
    ∧ ∃ u, verify_login (register_student ⟨[], [], [], 0, 0, 0⟩ "alice" "secret" true).2
          "alice" "secret" = some u
        ∧ u.role = "student" ∧ u.username = "alice" :=
  register_then_verify_login ⟨[], [], [], 0, 0, 0⟩ "alice" "secret"
    (by decide) (by decide) rfl

/-- C5: `register_student` fails with the missing-credentials message whenever
username or password is empty, fails with the username-taken message (the
ConflictError) whenever a user with that username already exists, and in both
cases returns the store unchanged, so in the taken case the existing
account's stored fields (username, password digest, role) are untouched. -/
theorem register_student_failure_modes (store : Store) (username password : String)
    (commitOk : Bool) :
    ((username = "" ∨ password = "") →
      register_student store username password commitOk
        = (some "Username and password are required.", store))
    ∧ (∀ u, username ≠ "" → password ≠ "" →
        get_user_by_username store username = some u →
        register_student store username password commitOk
          = (some "Username already exists. Please choose another.", store)) := by
  constructor
  · intro h
    unfold register_student
    rw [if_pos h]
  · intro u hu hp hfound
    unfold register_student
    rw [if_neg (not_or.mpr ⟨hu, hp⟩), hfound]

/-- Witness for C5: an empty username is rejected with the
missing-credentials message, and registering "bob" again over a store that
already holds a user "bob" is rejected with the username-taken message,
leaving the store (and hence bob's stored fields) unchanged. -/
theorem register_student_failure_modes_witness :
    register_student ⟨[], [], [], 0, 0, 0⟩ "" "pw" true
      = (some "Username and password are required.", ⟨[], [], [], 0, 0, 0⟩)
    ∧ register_student ⟨[⟨0, "bob", "d0", "student"⟩], [], [], 1, 0, 0⟩ "bob" "pw" true
      = (some "Username already exists. Please choose another.",
          ⟨[⟨0, "bob", "d0", "student"⟩], [], [], 1, 0, 0⟩) :=
  ⟨(register_student_failure_modes ⟨[], [], [], 0, 0, 0⟩ "" "pw" true).1 (Or.inl rfl),
   (register_student_failure_modes ⟨[⟨0, "bob", "d0", "student"⟩], [], [], 1, 0, 0⟩
      "bob" "pw" true).2 ⟨0, "bob", "d0", "student"⟩ (by decide) (by decide) rfl⟩

/-- C6: after a successful `add_question` with options `[o1, o2, o3, o4]`
(correct option `o2`, topic "math"), the list returned by
`get_all_questions` contains an entry for the new question whose serialized
options deserialize to exactly the ordered sequence `[o1, o2, o3, o4]`: the
serialized storage round-trips the list order exactly. -/
theorem add_question_listed_roundtrip (store : Store) (text o1 o2 o3 o4 : String) :
    (add_question store text [o1, o2, o3, o4] o2 "math" true).1 = true
    ∧ ∃ e ∈ get_all_questions (add_question store text [o1, o2, o3, o4] o2 "math" true).2,
        e.id = store.nextQuestionId ∧ json_loads e.options = some [o1, o2, o3, o4] := by
  constructor
  · rfl
  · refine ⟨⟨store.nextQuestionId, text, json_dumps [o1, o2, o3, o4], o2, "math"⟩,
      ?_, rfl, json_loads_dumps [o1, o2, o3, o4]⟩
    show (⟨store.nextQuestionId, text, json_dumps [o1, o2, o3, o4], o2, "math"⟩ :
        QuestionView) ∈ get_all_questions
          { store with
            questions := store.questions ++
              [⟨store.nextQuestionId, text, json_dumps [o1, o2, o3, o4], o2, "math"⟩],
            nextQuestionId := store.nextQuestionId + 1 }
    unfold get_all_questions
    refine List.mem_map.mpr
      ⟨⟨store.nextQuestionId, text, json_dumps [o1, o2, o3, o4], o2, "math"⟩, ?_, rfl⟩
    rw [List.mem_mergeSort]
    exact List.mem_append.mpr (Or.inr (List.mem_singleton.mpr rfl))

/-- C7: `get_exam_questions` lists, for every stored question whose serialized
options deserialize successfully, an entry with that question's id, text and
the deserialized ordered options (in particular, for options stored through
`json_dumps`, exactly the originally stored sequence); a question whose
stored options fail to deserialize is skipped while the listing of the
remaining questions is still returned, with no error raised. -/
theorem get_exam_questions_spec (store : Store) (q : Question)
    (hq : q ∈ store.questions) :
    (∀ l, json_loads q.options = some l →
        (⟨q.id, q.question_text, l⟩ : ExamQuestion) ∈ get_exam_questions store)
    ∧ (∀ opts, q.options = json_dumps opts →
        (⟨q.id, q.question_text, opts⟩ : ExamQuestion) ∈ get_exam_questions store)
    ∧ (json_loads q.options = none →
        (store.questions.map (fun q2 => q2.id)).Nodup →
        ∀ e ∈ get_exam_questions store, e.id ≠ q.id) := by
  have hyes : ∀ l, json_loads q.options = some l →
      (⟨q.id, q.question_text, l⟩ : ExamQuestion) ∈ get_exam_questions store := by
    intro l hl
    unfold get_exam_questions
    exact List.mem_filterMap.mpr ⟨q, hq, by rw [hl]⟩
  refine ⟨hyes, ?_, ?_⟩
  · intro opts hopts
    exact hyes opts (by rw [hopts, json_loads_dumps])
  · intro hnone hnd e he hee
    unfold get_exam_questions at he
    obtain ⟨q2, hq2, hf⟩ := List.mem_filterMap.mp he
    cases hl2 : json_loads q2.options with
    | none =>
      rw [hl2] at hf
      exact Option.noConfusion hf
    | some opts =>
      rw [hl2] at hf
      have he2 : e = ⟨q2.id, q2.question_text, opts⟩ := by
        injection hf with h
        exact h.symm
      have hid : q2.id = q.id := by
        rw [he2] at hee
        exact hee
      have hqq : q2 = q := List.inj_on_of_nodup_map hnd hq2 hq hid
      rw [hqq, hnone] at hl2
      exact Option.noConfusion hl2

/-- Witness for C7: a store with a well-formed question (id 1) and a corrupt
one (id 2, stored options "oops"): the listing contains the deserialized
entry for id 1 and no entry for id 2. -/
theorem get_exam_questions_spec_witness :
    (⟨1, "Q1", ["A", "B"]⟩ : ExamQuestion) ∈ get_exam_questions
        ⟨[], [⟨1, "Q1", json_dumps ["A", "B"], "B", "t"⟩, ⟨2, "Q2", "oops", "C", "t"⟩],
          [], 0, 3, 0⟩
    ∧ ∀ e ∈ get_exam_questions
        ⟨[], [⟨1, "Q1", json_dumps ["A", "B"], "B", "t"⟩, ⟨2, "Q2", "oops", "C", "t"⟩],
          [], 0, 3, 0⟩, e.id ≠ 2 :=
  ⟨(get_exam_questions_spec
      ⟨[], [⟨1, "Q1", json_dumps ["A", "B"], "B", "t"⟩, ⟨2, "Q2", "oops", "C", "t"⟩],
        [], 0, 3, 0⟩
      ⟨1, "Q1", json_dumps ["A", "B"], "B", "t"⟩
      (List.mem_cons_self _ _)).2.1 ["A", "B"] rfl,
   (get_exam_questions_spec
      ⟨[], [⟨1, "Q1", json_dumps ["A", "B"], "B", "t"⟩, ⟨2, "Q2", "oops", "C", "t"⟩],
        [], 0, 3, 0⟩
      ⟨2, "Q2", "oops", "C", "t"⟩
      (by simp)).2.2 rfl (by decide)⟩

/-- C8: the `requires_auth` guard with required role R sends an anonymous
session (no username) to login, runs the wrapped view when the session's
role equals R, sends an authenticated student to the student dashboard
when R is not student, and sends any other mismatched role to login. -/
theorem requires_auth_cases (R : String) (s : Session) :
    (s.username = none → requires_auth R s = .redirectLogin)
    ∧ (∀ u, s.username = some u → s.role = some R → requires_auth R s = .allow)
    ∧ (∀ u, s.username = some u → s.role = some "student" → "student" ≠ R →
        requires_auth R s = .redirectStudentHome)
    ∧ (∀ u r, s.username = some u → s.role = some r → r ≠ R → r ≠ "student" →
        requires_auth R s = .redirectLogin) := by
  refine ⟨?_, ?_, ?_, ?_⟩
  · intro h
    simp [requires_auth, h]
  · intro u hu hr
    simp [requires_auth, hu, hr]
  · intro u hu hr hne
    simp [requires_auth, hu, hr, hne]
  · intro u r hu hr hne hns
    simp [requires_auth, hu, hr, hne, hns]

/-- Witness for C8: with required role "admin", the four session shapes are
decided as the guard contract demands. -/
theorem requires_auth_cases_witness :
    requires_auth "admin" ⟨none, none⟩ = .redirectLogin
    ∧ requires_auth "admin" ⟨some "root", some "admin"⟩ = .allow
    ∧ requires_auth "admin" ⟨some "amy", some "student"⟩ = .redirectStudentHome
    ∧ requires_auth "admin" ⟨some "eve", some "proctor"⟩ = .redirectLogin :=
  ⟨(requires_auth_cases "admin" ⟨none, none⟩).1 rfl,
   (requires_auth_cases "admin" ⟨some "root", some "admin"⟩).2.1 "root" rfl rfl,
   (requires_auth_cases "admin" ⟨some "amy", some "student"⟩).2.2.1 "amy" rfl rfl
     (by decide),
   (requires_auth_cases "admin" ⟨some "eve", some "proctor"⟩).2.2.2 "eve" "proctor"
     rfl rfl (by decide) (by decide)⟩

end ExamSystem
